import Mathlib

set_option autoImplicit false

/-!
Verification of the timer, due-date filtering, idle and notification logic of
the "ClickUp Due Today" browser extension, as a shallow embedding in Lean.

Instants and durations are JavaScript millisecond timestamps, embedded as `Int`
(JS `Date.now()` arithmetic on integral values is exact in doubles for the
relevant range).  A JS `null` field is embedded as `Option.none`.  The two
`Date.now()` reads inside one synchronous handler are embedded as a single
instant `now` passed explicitly.
-/

namespace ClickUpDueToday

/-- One entry of the `activeTimers` map, as persisted to `chrome.storage.local`
(`{ startTime, pausedDuration, pausedAt }`; the map key is the task id, which
is not stored inside the value). -/
structure TimerEntry where
  startTime : Int
  pausedDuration : Int
  pausedAt : Option Int
  deriving Repr, DecidableEq

/-- The `activeTimers` map, task id to timer entry, embedded as an
association list with unique keys maintained by `insertTimer`/`eraseTimer`. -/
abbrev TimerMap := List (String × TimerEntry)

/-- Lookup `activeTimers[taskId]`. -/
def lookupTimer (m : TimerMap) (taskId : String) : Option TimerEntry :=
  match m with
  | [] => none
  | (k, e) :: rest => if k = taskId then some e else lookupTimer rest taskId

/-- JS `delete activeTimers[taskId]`. -/
def eraseTimer (m : TimerMap) (taskId : String) : TimerMap :=
  m.filter (fun p => !(p.1 == taskId))

/-- JS `activeTimers[taskId] = e` (set or overwrite the key). -/
def insertTimer (m : TimerMap) (taskId : String) (e : TimerEntry) : TimerMap :=
  (taskId, e) :: eraseTimer m taskId

/-- popup.js `getEffectiveElapsed(timerData)`: sequential subtractions from
`now - startTime`, then `Math.max(0, elapsed)`.  `now` (the single
`Date.now()` read inside the function) is passed explicitly. -/
def getEffectiveElapsed (timerData : TimerEntry) (now : Int) : Int :=
  let elapsed := now - timerData.startTime
  let elapsed := elapsed - timerData.pausedDuration
  let elapsed :=
    match timerData.pausedAt with
    | some p => elapsed - (now - p)
    | none => elapsed
  max 0 elapsed

/-- The formula of the specification, written exactly as the spec words it:
`now - start_time - paused_duration - (paused_at ? now - paused_at : 0)`,
clamped to be nonnegative.  Kept separate from `getEffectiveElapsed` so the
two can be compared. -/
def effectiveElapsedSpec (e : TimerEntry) (now : Int) : Int :=
  max 0 (now - e.startTime - e.pausedDuration -
    (match e.pausedAt with
     | some p => now - p
     | none => 0))

/-- The body of the `POST /task/:id/time` request built by popup.js
`stopTimer` (`{ duration, start, end }`), together with the task id in the
URL path. -/
structure LogRequest where
  taskId : String
  duration : Int
  start : Int
  endTime : Int
  deriving Repr, DecidableEq

/-- Outbound remote-API requests relevant to the timer lifecycle: the
status-update `PUT /task/:id` issued by `completeTask`, and the time-log
`POST /task/:id/time` issued by `stopTimer`. -/
inductive ApiRequest where
  | putStatus (taskId : String)
  | postTime (log : LogRequest)
  deriving Repr, DecidableEq

/-- Popup state relevant to the timer lifecycle: the in-memory `activeTimers`
object and the copy persisted in `chrome.storage.local` (interval ids, a
render-only field, are not modelled). -/
structure PopupState where
  activeTimers : TimerMap
  persisted : TimerMap
  deriving Repr, DecidableEq

/-- popup.js `persistTimerState()`: writes the current `activeTimers`
(minus interval ids) to `chrome.storage.local`. -/
def persistTimerState (s : PopupState) : PopupState :=
  { s with persisted := s.activeTimers }

/-- popup.js `startTimer(taskId)`: unconditionally sets
`activeTimers[taskId] = { startTime: Date.now(), pausedDuration: 0,
pausedAt: null }` and persists.  Note the function itself has no
existing-entry guard; the guard lives in `toggleTimer`. -/
def startTimer (s : PopupState) (taskId : String) (now : Int) : PopupState :=
  persistTimerState
    { s with activeTimers := insertTimer s.activeTimers taskId ⟨now, 0, none⟩ }

/-- Result of `stopTimer`: the new popup state and the time-log request it
issued (`none` when it returned early because no entry existed). -/
structure StopResult where
  state : PopupState
  request : Option LogRequest
  deriving Repr, DecidableEq

/-- popup.js `stopTimer(taskId)`: returns early if no entry exists; otherwise
computes `getEffectiveElapsed`, issues the time-log request (inside
`try/catch`, so `logSucceeds`, the outcome of the `fetch`, is swallowed),
then deletes the entry and persists regardless of that outcome. -/
def stopTimer (s : PopupState) (taskId : String) (now : Int)
    (logSucceeds : Bool) : StopResult :=
  match lookupTimer s.activeTimers taskId with
  | none => ⟨s, none⟩
  | some timer =>
      let req : LogRequest :=
        ⟨taskId, getEffectiveElapsed timer now, timer.startTime, now⟩
      -- `logSucceeds` is deliberately not consulted: the catch block only
      -- logs to the console, and the delete/persist lines run either way.
      let _remoteOutcome := logSucceeds
      let s1 := persistTimerState
        { s with activeTimers := eraseTimer s.activeTimers taskId }
      ⟨s1, some req⟩

/-- popup.js `toggleTimer(taskId, button)`: stop when an entry exists for the
task id, start otherwise.  This is the only caller of `startTimer` and the
only user-facing timer entry point. -/
def toggleTimer (s : PopupState) (taskId : String) (now : Int)
    (logSucceeds : Bool) : StopResult :=
  match lookupTimer s.activeTimers taskId with
  | some _ => stopTimer s taskId now logSucceeds
  | none => ⟨startTimer s taskId now, none⟩

/-- Result of `completeTask`: the new popup state and every remote-API
request issued during the call. -/
structure CompleteResult where
  state : PopupState
  requests : List ApiRequest
  deriving Repr, DecidableEq

/-- popup.js `completeTask(taskId, taskElement)`: issues the status-update
`PUT` (closing the task); on success, if a timer entry exists it clears the
display interval, deletes the entry and persists — without computing any
elapsed time and without issuing a time-log request — then removes the task
element from the list.  On `fetch` failure the catch restores the UI and
timer state is untouched. -/
def completeTask (s : PopupState) (taskId : String)
    (putSucceeds : Bool) : CompleteResult :=
  let requests := [ApiRequest.putStatus taskId]
  if putSucceeds then
    match lookupTimer s.activeTimers taskId with
    | some _ =>
        ⟨persistTimerState
          { s with activeTimers := eraseTimer s.activeTimers taskId },
         requests⟩
    | none => ⟨s, requests⟩
  else ⟨s, requests⟩

/-! Background idle handling (background.js `chrome.idle.onStateChanged`).
The JS guard `if (!activeTimers[taskId].pausedAt)` tests for `null`; stored
`pausedAt` values are `Date.now()` reads (and the persistence layer
normalises falsy values to `null`), so the guard is embedded as the
`Option` pattern match. -/

/-- Per-entry effect of the idle branch: set `pausedAt = now` unless already
paused. -/
def pauseEntry (now : Int) (e : TimerEntry) : TimerEntry :=
  match e.pausedAt with
  | some _ => e
  | none => { e with pausedAt := some now }

/-- Per-entry effect of the active branch: fold `now - pausedAt` into
`pausedDuration` and clear `pausedAt`, unless already running. -/
def resumeEntry (now : Int) (e : TimerEntry) : TimerEntry :=
  match e.pausedAt with
  | some p =>
      { e with pausedDuration := e.pausedDuration + (now - p), pausedAt := none }
  | none => e

/-- The idle/locked branch of the listener: pause every entry of the map. -/
def pauseAll (now : Int) (m : TimerMap) : TimerMap :=
  m.map (fun p => (p.1, pauseEntry now p.2))

/-- The active branch of the listener: resume every entry of the map. -/
def resumeAll (now : Int) (m : TimerMap) : TimerMap :=
  m.map (fun p => (p.1, resumeEntry now p.2))

/-! Due-today filtering (background.js `fetchTasksWithKey`).  The code
computes `todayStart` (local midnight via `setHours(0,0,0,0)`) and
`todayEndMs` (`setHours(23,59,59,999)` on the same local day); on a standard
24-hour day `todayEndMs = todayStart + 86400000 - 1`.  A task's `due_date`
is a millisecond timestamp string; `parseInt` of it is embedded as the
`Int` inside the `Option` (`none` for a missing/falsy `due_date`). -/

/-- A fetched task, reduced to the fields the filter consults. -/
structure Task where
  id : String
  due_date : Option Int
  deriving Repr, DecidableEq

/-- The filter predicate applied to `data.tasks` per team: drop tasks without
a due date, then `dueDate <= todayEndMs` when overdue tasks are included,
else `todayStart <= dueDate && dueDate <= todayEndMs`. -/
def taskDueFilter (includeOverdue : Bool) (todayStart todayEndMs : Int)
    (task : Task) : Bool :=
  match task.due_date with
  | none => false
  | some dueDate =>
      if includeOverdue then decide (dueDate ≤ todayEndMs)
      else decide (todayStart ≤ dueDate) && decide (dueDate ≤ todayEndMs)

/-- The per-team result set: `data.tasks.filter(...)`. -/
def filterDueTasks (includeOverdue : Bool) (todayStart todayEndMs : Int)
    (tasks : List Task) : List Task :=
  tasks.filter (taskDueFilter includeOverdue todayStart todayEndMs)

/-! Notification check (background.js `checkDueNotifications`).  The
`notifiedTasks` JS `Set` is embedded as a `List String` whose `add` prepends
the id; membership is all that is consulted. -/

/-- The notification condition for one task at one tick: a due date exists,
`timeUntilDue = dueDate - now` is strictly positive and at most
`notifyBeforeMs`, and the id is not in the notified set. -/
def shouldNotify (now notifyBeforeMs : Int) (notified : List String)
    (t : Task) : Bool :=
  match t.due_date with
  | none => false
  | some d =>
      decide (0 < d - now) && decide (d - now ≤ notifyBeforeMs) &&
        !(decide (t.id ∈ notified))

/-- The first loop of `checkDueNotifications`: walk the fetched tasks, emit a
notification (recorded by id, in order) and add the id to the set whenever
`shouldNotify` holds against the set as it stands mid-loop. -/
def notifyLoop (now notifyBeforeMs : Int) :
    List Task → List String → List String × List String
  | [], notified => ([], notified)
  | t :: ts, notified =>
      if shouldNotify now notifyBeforeMs notified t then
        let rest := notifyLoop now notifyBeforeMs ts (t.id :: notified)
        (t.id :: rest.1, rest.2)
      else
        notifyLoop now notifyBeforeMs ts notified

/-- The sweep condition of the cleanup loop: an id is kept iff
`tasks.find(t => t.id === taskId)` succeeds and the found task does not have
a due date strictly in the past (`!task || (task.due_date && due < now)`
deletes; note a found task without a due date is kept). -/
def keepNotified (now : Int) (tasks : List Task) (taskId : String) : Bool :=
  match tasks.find? (fun t => decide (t.id = taskId)) with
  | none => false
  | some t =>
      match t.due_date with
      | none => true
      | some d => !(decide (d < now))

/-- The cleanup loop of `checkDueNotifications`: delete from the set every id
failing `keepNotified`. -/
def sweepNotified (now : Int) (tasks : List Task)
    (notified : List String) : List String :=
  notified.filter (keepNotified now tasks)

/-- One whole `checkDueNotifications` tick on already-fetched tasks: the
notify loop followed by the sweep.  Returns the ids notified this tick and
the notified set left for the next tick. -/
def checkDueNotifications (now notifyBeforeMs : Int) (tasks : List Task)
    (notified : List String) : List String × List String :=
  let stepped := notifyLoop now notifyBeforeMs tasks notified
  (stepped.1, sweepNotified now tasks stepped.2)

/-! Idle detection threshold (background.js and options.js). -/

/-- background.js: `const IDLE_THRESHOLD_SECONDS = 60;`. -/
def IDLE_THRESHOLD_SECONDS : Int := 60

/-- The persisted settings fields consulted by the idle/notification logic
(options.js `settings` object). -/
structure Settings where
  idleThresholdMinutes : Int
  notificationMinutes : Int
  deriving Repr, DecidableEq

/-- options.js validation of the idle-threshold input:
`isNaN(v) || v < 1 ? 1 : v` (a non-numeric input is `none`). -/
def validIdleThreshold (raw : Option Int) : Int :=
  match raw with
  | none => 1
  | some v => if v < 1 then 1 else v

/-- The threshold background.js arms `chrome.idle.setDetectionInterval` with
(on install and on startup), as a function of the stored settings: the code
passes the constant `IDLE_THRESHOLD_SECONDS` and never reads
`settings.idleThresholdMinutes`. -/
def armedIdleThresholdSeconds (s : Settings) : Int :=
  IDLE_THRESHOLD_SECONDS

/-- Background state touched by the message listener, as far as idle
detection is concerned: the threshold currently armed on the host detector. -/
structure BackgroundIdleState where
  armedSeconds : Int
  deriving Repr, DecidableEq

/-- The `SETTINGS_UPDATED` branch of background.js `onMessage`: it calls
`updateBadgeCount()` only; `chrome.idle.setDetectionInterval` is not called,
so the armed threshold is unchanged whatever the new settings say. -/
def handleSettingsUpdated (s : Settings) (st : BackgroundIdleState) :
    BackgroundIdleState :=
  st

/-! Reachable timer entries.  `ReachableTimer e t` holds when entry `e` can
be the state, at wall-clock instant `t`, of a timer created by `startTimer`
and since transformed only by the idle listener's `pauseEntry`/`resumeEntry`
with a non-decreasing clock.  This captures exactly the states the program
can present to `stopTimer`. -/
inductive ReachableTimer : TimerEntry → Int → Prop where
  | start (t : Int) : ReachableTimer ⟨t, 0, none⟩ t
  | tick {e : TimerEntry} {t t' : Int} :
      ReachableTimer e t → t ≤ t' → ReachableTimer e t'
  | pause {e : TimerEntry} {t : Int} :
      ReachableTimer e t → ReachableTimer (pauseEntry t e) t
  | resume {e : TimerEntry} {t : Int} :
      ReachableTimer e t → ReachableTimer (resumeEntry t e) t

/-! Helper lemmas about the association-list map operations. -/

theorem lookupTimer_eraseTimer_self (m : TimerMap) (taskId : String) :
    lookupTimer (eraseTimer m taskId) taskId = none := by
  induction m with
  | nil => rfl
  | cons p rest ih =>
      obtain ⟨k, v⟩ := p
      by_cases h : k = taskId
      · simpa [eraseTimer, h] using ih
      · simpa [eraseTimer, lookupTimer, h] using ih

theorem lookupTimer_insertTimer_self (m : TimerMap) (taskId : String)
    (e : TimerEntry) : lookupTimer (insertTimer m taskId e) taskId = some e := by
  simp [insertTimer, lookupTimer]

/-- C1: for every timer entry `e` and instant `now ≥ e.startTime`, the code's
`getEffectiveElapsed` equals the specification formula
`now - start_time - paused_duration - (paused_at ? now - paused_at : 0)`
clamped below at 0, and the duration field of the time-log request submitted
by `stopTimer` is exactly this same pure function of the stopped entry. -/
theorem getEffectiveElapsed_eq_spec_and_submitted
    (e : TimerEntry) (now : Int) (hnow : e.startTime ≤ now)
    (s : PopupState) (taskId : String) (b : Bool)
    (hlook : lookupTimer s.activeTimers taskId = some e) :
    getEffectiveElapsed e now = effectiveElapsedSpec e now ∧
    (stopTimer s taskId now b).request =
      some ⟨taskId, getEffectiveElapsed e now, e.startTime, now⟩ := by
  constructor
  · cases h : e.pausedAt <;> simp [getEffectiveElapsed, effectiveElapsedSpec, h]
  · simp [stopTimer, hlook]

/-- Witness for C1 at a concrete paused entry and instant. -/
theorem getEffectiveElapsed_eq_spec_and_submitted_witness :
    (⟨100, 5, some 130⟩ : TimerEntry).startTime ≤ (150 : Int) ∧
    lookupTimer [("t1", ⟨100, 5, some 130⟩)] "t1" =
      some (⟨100, 5, some 130⟩ : TimerEntry) ∧
    (getEffectiveElapsed ⟨100, 5, some 130⟩ 150 =
        effectiveElapsedSpec ⟨100, 5, some 130⟩ 150 ∧
      (stopTimer ⟨[("t1", ⟨100, 5, some 130⟩)], [("t1", ⟨100, 5, some 130⟩)]⟩
          "t1" 150 true).request =
        some ⟨"t1", getEffectiveElapsed ⟨100, 5, some 130⟩ 150, 100, 150⟩) :=
  ⟨by decide, by decide,
    getEffectiveElapsed_eq_spec_and_submitted ⟨100, 5, some 130⟩ 150 (by decide)
      ⟨[("t1", ⟨100, 5, some 130⟩)], [("t1", ⟨100, 5, some 130⟩)]⟩ "t1" true
      (by decide)⟩

/-- C2 counterexample: with an existing running entry for `"t1"` started at
100, invoking the timer toggle again at 200 does not leave the entry
unchanged — the entry is gone afterwards (the call performed a stop), so the
claimed failing, state-preserving second start does not describe the code. -/
theorem toggleTimer_second_invocation_changes_entry :
    ¬ (lookupTimer
        (toggleTimer ⟨[("t1", ⟨100, 0, none⟩)], [("t1", ⟨100, 0, none⟩)]⟩
          "t1" 200 true).state.activeTimers "t1" =
       some (⟨100, 0, none⟩ : TimerEntry)) := by
  decide

/-- C2 amended: the code has no failing start.  The only user-facing entry
point is `toggleTimer`: when an entry already exists for the task id it
performs a stop (so the entry is removed, not preserved), and it invokes
`startTimer` only when no entry exists, in which case a fresh entry
`{start_time = now, paused_duration = 0, paused_at = null}` is created.
`startTimer` itself carries no guard and would overwrite an existing entry
if invoked directly. -/
theorem toggleTimer_guards_startTimer (s : PopupState) (taskId : String)
    (now : Int) (b : Bool) :
    ((lookupTimer s.activeTimers taskId).isSome →
        toggleTimer s taskId now b = stopTimer s taskId now b ∧
        lookupTimer (toggleTimer s taskId now b).state.activeTimers taskId =
          none) ∧
    (lookupTimer s.activeTimers taskId = none →
        toggleTimer s taskId now b = ⟨startTimer s taskId now, none⟩) ∧
    lookupTimer (startTimer s taskId now).activeTimers taskId =
      some ⟨now, 0, none⟩ := by
  refine ⟨?_, ?_, ?_⟩
  · intro h
    obtain ⟨e, he⟩ := Option.isSome_iff_exists.mp h
    refine ⟨by simp [toggleTimer, he], ?_⟩
    simp [toggleTimer, stopTimer, he, persistTimerState,
      lookupTimer_eraseTimer_self]
  · intro h
    simp [toggleTimer, h]
  · simp [startTimer, persistTimerState, lookupTimer_insertTimer_self]

/-- Witness for C2's amended theorem at concrete states. -/
theorem toggleTimer_guards_startTimer_witness :
    (lookupTimer [("t1", ⟨100, 0, none⟩)] "t1").isSome ∧
    (toggleTimer ⟨[("t1", ⟨100, 0, none⟩)], [("t1", ⟨100, 0, none⟩)]⟩
        "t1" 200 true =
      stopTimer ⟨[("t1", ⟨100, 0, none⟩)], [("t1", ⟨100, 0, none⟩)]⟩
        "t1" 200 true ∧
      lookupTimer
        (toggleTimer ⟨[("t1", ⟨100, 0, none⟩)], [("t1", ⟨100, 0, none⟩)]⟩
          "t1" 200 true).state.activeTimers "t1" = none) :=
  ⟨by decide,
    (toggleTimer_guards_startTimer
      ⟨[("t1", ⟨100, 0, none⟩)], [("t1", ⟨100, 0, none⟩)]⟩
      "t1" 200 true).1 (by decide)⟩

/-- C3: for every existing timer entry, `stopTimer` removes the entry from
the active-timers map and persists the map whatever the outcome of the
time-log request: after the call no entry for the task id exists either in
memory or in storage, and the result does not depend on whether the log
request succeeded. -/
theorem stopTimer_removes_entry_regardless_of_outcome
    (s : PopupState) (taskId : String) (now : Int) (e : TimerEntry)
    (hlook : lookupTimer s.activeTimers taskId = some e) (b : Bool) :
    lookupTimer (stopTimer s taskId now b).state.activeTimers taskId = none ∧
    (stopTimer s taskId now b).state.persisted =
      (stopTimer s taskId now b).state.activeTimers ∧
    lookupTimer (stopTimer s taskId now b).state.persisted taskId = none ∧
    stopTimer s taskId now true = stopTimer s taskId now false := by
  refine ⟨?_, ?_, ?_, ?_⟩ <;>
    simp [stopTimer, hlook, persistTimerState, lookupTimer_eraseTimer_self]

/-- Witness for C3 at a concrete state, on the failing-request branch. -/
theorem stopTimer_removes_entry_witness :
    lookupTimer [("t1", ⟨100, 5, some 130⟩)] "t1" =
      some (⟨100, 5, some 130⟩ : TimerEntry) ∧
    (lookupTimer
        (stopTimer ⟨[("t1", ⟨100, 5, some 130⟩)], [("t1", ⟨100, 5, some 130⟩)]⟩
          "t1" 150 false).state.activeTimers "t1" = none ∧
      (stopTimer ⟨[("t1", ⟨100, 5, some 130⟩)], [("t1", ⟨100, 5, some 130⟩)]⟩
          "t1" 150 false).state.persisted =
        (stopTimer ⟨[("t1", ⟨100, 5, some 130⟩)], [("t1", ⟨100, 5, some 130⟩)]⟩
          "t1" 150 false).state.activeTimers ∧
      lookupTimer
        (stopTimer ⟨[("t1", ⟨100, 5, some 130⟩)], [("t1", ⟨100, 5, some 130⟩)]⟩
          "t1" 150 false).state.persisted "t1" = none ∧
      stopTimer ⟨[("t1", ⟨100, 5, some 130⟩)], [("t1", ⟨100, 5, some 130⟩)]⟩
          "t1" 150 true =
        stopTimer ⟨[("t1", ⟨100, 5, some 130⟩)], [("t1", ⟨100, 5, some 130⟩)]⟩
          "t1" 150 false) :=
  ⟨by decide,
    stopTimer_removes_entry_regardless_of_outcome
      ⟨[("t1", ⟨100, 5, some 130⟩)], [("t1", ⟨100, 5, some 130⟩)]⟩
      "t1" 150 ⟨100, 5, some 130⟩ (by decide) false⟩

/-- C4: as wall-clock time increases, `getEffectiveElapsed` is monotonically
non-decreasing on an entry that is running (`paused_at` unset) and constant
on an entry that is paused (`paused_at` set) — so whatever sequence of
pause/resume transitions produced the entry, the live value never decreases
while running and is frozen while paused. -/
theorem getEffectiveElapsed_monotone_running_frozen_paused
    (e : TimerEntry) (n1 n2 : Int) (h : n1 ≤ n2) :
    (e.pausedAt = none →
      getEffectiveElapsed e n1 ≤ getEffectiveElapsed e n2) ∧
    (∀ p, e.pausedAt = some p →
      getEffectiveElapsed e n1 = getEffectiveElapsed e n2) := by
  constructor
  · intro hp
    simp only [getEffectiveElapsed, hp]
    omega
  · intro p hp
    simp only [getEffectiveElapsed, hp]
    omega

/-- Witness for C4 at concrete entries and instants. -/
theorem getEffectiveElapsed_monotone_witness :
    (200 : Int) ≤ 260 ∧
    ((⟨100, 30, none⟩ : TimerEntry).pausedAt = none →
      getEffectiveElapsed ⟨100, 30, none⟩ 200 ≤
        getEffectiveElapsed ⟨100, 30, none⟩ 260) ∧
    (∀ p, (⟨100, 30, none⟩ : TimerEntry).pausedAt = some p →
      getEffectiveElapsed ⟨100, 30, none⟩ 200 =
        getEffectiveElapsed ⟨100, 30, none⟩ 260) :=
  ⟨by decide,
    (getEffectiveElapsed_monotone_running_frozen_paused
      ⟨100, 30, none⟩ 200 260 (by decide)).1,
    (getEffectiveElapsed_monotone_running_frozen_paused
      ⟨100, 30, none⟩ 200 260 (by decide)).2⟩

theorem pauseEntry_pauseEntry (n1 n2 : Int) (e : TimerEntry) :
    pauseEntry n2 (pauseEntry n1 e) = pauseEntry n1 e := by
  cases h : e.pausedAt <;> simp [pauseEntry, h]

theorem resumeEntry_resumeEntry (n1 n2 : Int) (e : TimerEntry) :
    resumeEntry n2 (resumeEntry n1 e) = resumeEntry n1 e := by
  cases h : e.pausedAt <;> simp [resumeEntry, h]

/-- C5: the idle handler's transitions are idempotent — pausing an
already-paused entry and resuming an already-running entry are no-ops per
entry, hence a second `pauseAll` after a `pauseAll`, and a second
`resumeAll` after a `resumeAll`, leave the whole map unchanged whatever the
two instants. -/
theorem pauseAll_resumeAll_idempotent
    (now : Int) (e : TimerEntry) (n1 n2 : Int) (m : TimerMap) :
    (e.pausedAt.isSome → pauseEntry now e = e) ∧
    (e.pausedAt = none → resumeEntry now e = e) ∧
    pauseAll n2 (pauseAll n1 m) = pauseAll n1 m ∧
    resumeAll n2 (resumeAll n1 m) = resumeAll n1 m := by
  refine ⟨?_, ?_, ?_, ?_⟩
  · intro h
    obtain ⟨p, hp⟩ := Option.isSome_iff_exists.mp h
    simp [pauseEntry, hp]
  · intro h
    simp [resumeEntry, h]
  · induction m with
    | nil => rfl
    | cons p rest ih =>
        simp [pauseAll, List.map_cons, pauseEntry_pauseEntry] at *
  · induction m with
    | nil => rfl
    | cons p rest ih =>
        simp [resumeAll, List.map_cons, resumeEntry_resumeEntry] at *

/-- Witness for C5 at a concrete paused entry, running entry, and map. -/
theorem pauseAll_resumeAll_idempotent_witness :
    ((⟨100, 0, some 120⟩ : TimerEntry).pausedAt.isSome →
      pauseEntry 150 ⟨100, 0, some 120⟩ = ⟨100, 0, some 120⟩) ∧
    pauseEntry 150 ⟨100, 0, some 120⟩ = ⟨100, 0, some 120⟩ ∧
    resumeEntry 150 ⟨100, 40, none⟩ = ⟨100, 40, none⟩ ∧
    pauseAll 210 (pauseAll 200 [("t1", ⟨100, 0, none⟩), ("t2", ⟨50, 7, some 90⟩)]) =
      pauseAll 200 [("t1", ⟨100, 0, none⟩), ("t2", ⟨50, 7, some 90⟩)] ∧
    resumeAll 210 (resumeAll 200 [("t1", ⟨100, 0, none⟩), ("t2", ⟨50, 7, some 90⟩)]) =
      resumeAll 200 [("t1", ⟨100, 0, none⟩), ("t2", ⟨50, 7, some 90⟩)] :=
  have h := pauseAll_resumeAll_idempotent 150 ⟨100, 0, some 120⟩ 200 210
    [("t1", ⟨100, 0, none⟩), ("t2", ⟨50, 7, some 90⟩)]
  have h2 := pauseAll_resumeAll_idempotent 150 ⟨100, 40, none⟩ 200 210
    [("t1", ⟨100, 0, none⟩), ("t2", ⟨50, 7, some 90⟩)]
  ⟨h.1, h.1 (by decide), h2.2.1 (by decide), h.2.2.1, h.2.2.2⟩

/-- C6: with `todayEndMs` standing at the last millisecond of the day
(`todayStart + 24h - 1`), a task with a due date appears in the non-overdue
result set iff its due date lies in `[todayStart, todayStart + 24h)`, and in
the overdue-inclusion result set iff its due date is `< todayStart + 24h`;
a task without a due date never appears in either mode. -/
theorem filterDueTasks_membership
    (includeOverdue : Bool) (todayStart todayEndMs : Int)
    (hEnd : todayEndMs = todayStart + 86400000 - 1)
    (tasks : List Task) (task : Task) :
    (task ∈ filterDueTasks false todayStart todayEndMs tasks ↔
      task ∈ tasks ∧ ∃ d, task.due_date = some d ∧
        todayStart ≤ d ∧ d < todayStart + 86400000) ∧
    (task ∈ filterDueTasks true todayStart todayEndMs tasks ↔
      task ∈ tasks ∧ ∃ d, task.due_date = some d ∧
        d < todayStart + 86400000) ∧
    (task.due_date = none →
      task ∉ filterDueTasks includeOverdue todayStart todayEndMs tasks) := by
  subst hEnd
  refine ⟨?_, ?_, ?_⟩
  · rw [filterDueTasks, List.mem_filter]
    cases h : task.due_date with
    | none => simp [taskDueFilter, h]
    | some d => simp [taskDueFilter, h]; intro _; omega
  · rw [filterDueTasks, List.mem_filter]
    cases h : task.due_date with
    | none => simp [taskDueFilter, h]
    | some d => simp [taskDueFilter, h]; intro _; omega
  · intro h hmem
    rw [filterDueTasks, List.mem_filter] at hmem
    simp [taskDueFilter, h] at hmem

/-- Witness for C6: with `t` = 1000000 as local midnight, the boundary due
dates `t-1`, `t`, `t+1` land as the claim says in both modes. -/
theorem filterDueTasks_membership_witness :
    (1000000 + 86400000 - 1 : Int) = 1000000 + 86400000 - 1 ∧
    ((⟨"a", some 999999⟩ : Task) ∈
        filterDueTasks false 1000000 (1000000 + 86400000 - 1)
          [⟨"a", some 999999⟩, ⟨"b", some 1000000⟩, ⟨"c", some 1000001⟩] ↔
      (⟨"a", some 999999⟩ : Task) ∈
          [(⟨"a", some 999999⟩ : Task), ⟨"b", some 1000000⟩, ⟨"c", some 1000001⟩] ∧
        ∃ d, (⟨"a", some 999999⟩ : Task).due_date = some d ∧
          1000000 ≤ d ∧ d < 1000000 + 86400000) ∧
    ((⟨"a", some 999999⟩ : Task) ∈
        filterDueTasks true 1000000 (1000000 + 86400000 - 1)
          [⟨"a", some 999999⟩, ⟨"b", some 1000000⟩, ⟨"c", some 1000001⟩] ↔
      (⟨"a", some 999999⟩ : Task) ∈
          [(⟨"a", some 999999⟩ : Task), ⟨"b", some 1000000⟩, ⟨"c", some 1000001⟩] ∧
        ∃ d, (⟨"a", some 999999⟩ : Task).due_date = some d ∧
          d < 1000000 + 86400000) ∧
    ((⟨"a", some 999999⟩ : Task).due_date = none →
      (⟨"a", some 999999⟩ : Task) ∉
        filterDueTasks false 1000000 (1000000 + 86400000 - 1)
          [⟨"a", some 999999⟩, ⟨"b", some 1000000⟩, ⟨"c", some 1000001⟩]) :=
  ⟨rfl, filterDueTasks_membership false 1000000 (1000000 + 86400000 - 1) rfl
    [⟨"a", some 999999⟩, ⟨"b", some 1000000⟩, ⟨"c", some 1000001⟩]
    ⟨"a", some 999999⟩⟩

/-- C8 counterexample: at a concrete popup state holding a running timer for
`"t1"`, completing the task issues only the status-update request — no
time-log request of any kind is in the issued list — while the timer entry
is nonetheless removed from both maps, so no accrued duration is submitted,
contrary to the claim. -/
theorem completeTask_submits_no_time_log :
    (completeTask ⟨[("t1", ⟨100, 0, none⟩)], [("t1", ⟨100, 0, none⟩)]⟩
        "t1" true).requests = [ApiRequest.putStatus "t1"] ∧
    ((completeTask ⟨[("t1", ⟨100, 0, none⟩)], [("t1", ⟨100, 0, none⟩)]⟩
        "t1" true).requests.all fun r =>
          match r with
          | ApiRequest.postTime _ => false
          | ApiRequest.putStatus _ => true) = true ∧
    lookupTimer
      (completeTask ⟨[("t1", ⟨100, 0, none⟩)], [("t1", ⟨100, 0, none⟩)]⟩
        "t1" true).state.activeTimers "t1" = none := by
  refine ⟨by decide, by decide, by decide⟩

/-- C8 amended: completing a task whose timer is running removes the timer
entry from the in-memory and persisted maps before the task leaves the
displayed list, but it submits no time-log request at all — the accrued
effective elapsed duration is discarded; the only remote request issued is
the status update closing the task. -/
theorem completeTask_discards_running_timer
    (s : PopupState) (taskId : String) (e : TimerEntry)
    (hlook : lookupTimer s.activeTimers taskId = some e) :
    (completeTask s taskId true).requests = [ApiRequest.putStatus taskId] ∧
    (∀ log, ApiRequest.postTime log ∉ (completeTask s taskId true).requests) ∧
    lookupTimer (completeTask s taskId true).state.activeTimers taskId =
      none ∧
    lookupTimer (completeTask s taskId true).state.persisted taskId = none := by
  refine ⟨?_, ?_, ?_, ?_⟩ <;>
    simp [completeTask, hlook, persistTimerState, lookupTimer_eraseTimer_self]

/-- Witness for C8's amended theorem at a concrete state. -/
theorem completeTask_discards_running_timer_witness :
    lookupTimer [("t2", ⟨40, 3, some 90⟩)] "t2" =
      some (⟨40, 3, some 90⟩ : TimerEntry) ∧
    ((completeTask ⟨[("t2", ⟨40, 3, some 90⟩)], [("t2", ⟨40, 3, some 90⟩)]⟩
        "t2" true).requests = [ApiRequest.putStatus "t2"] ∧
      (∀ log, ApiRequest.postTime log ∉
        (completeTask ⟨[("t2", ⟨40, 3, some 90⟩)], [("t2", ⟨40, 3, some 90⟩)]⟩
          "t2" true).requests) ∧
      lookupTimer
        (completeTask ⟨[("t2", ⟨40, 3, some 90⟩)], [("t2", ⟨40, 3, some 90⟩)]⟩
          "t2" true).state.activeTimers "t2" = none ∧
      lookupTimer
        (completeTask ⟨[("t2", ⟨40, 3, some 90⟩)], [("t2", ⟨40, 3, some 90⟩)]⟩
          "t2" true).state.persisted "t2" = none) :=
  ⟨by decide,
    completeTask_discards_running_timer
      ⟨[("t2", ⟨40, 3, some 90⟩)], [("t2", ⟨40, 3, some 90⟩)]⟩
      "t2" ⟨40, 3, some 90⟩ (by decide)⟩

/-- C9: the code arms the host idle detector with the fixed constant
`IDLE_THRESHOLD_SECONDS = 60`, whatever `settings.idleThresholdMinutes`
says, and the `SETTINGS_UPDATED` message leaves the armed threshold
untouched.  Evaluated at the failing input `idleThresholdMinutes = 5` (a
value the options page accepts and persists as-is): the armed threshold is
60 seconds, not the 300 seconds the claim requires, and a settings change
does not re-arm. -/
theorem armedIdleThreshold_ignores_setting :
    validIdleThreshold (some 5) = 5 ∧
    armedIdleThresholdSeconds ⟨5, 15⟩ = 60 ∧
    armedIdleThresholdSeconds ⟨5, 15⟩ ≠ 5 * 60 ∧
    handleSettingsUpdated ⟨5, 15⟩ ⟨60⟩ = ⟨60⟩ ∧
    (∀ s : Settings, armedIdleThresholdSeconds s = 60) ∧
    (∀ s : Settings, ∀ st : BackgroundIdleState,
      handleSettingsUpdated s st = st) := by
  refine ⟨by decide, by decide, by decide, by decide, fun s => rfl,
    fun s st => rfl⟩

/-- Bookkeeping invariant of reachable timer entries: the start lies in the
past, accumulated pause time is nonnegative and never exceeds the wall time
elapsed since the start (counting the open pause interval when paused). -/
theorem reachableTimer_invariant {e : TimerEntry} {t : Int}
    (h : ReachableTimer e t) :
    e.startTime ≤ t ∧ 0 ≤ e.pausedDuration ∧
    (∀ p, e.pausedAt = some p →
      e.startTime ≤ p ∧ p ≤ t ∧
      e.pausedDuration + (t - p) ≤ t - e.startTime) ∧
    (e.pausedAt = none → e.pausedDuration ≤ t - e.startTime) := by
  induction h with
  | start t => simp
  | tick h hle ih =>
      obtain ⟨h1, h2, h3, h4⟩ := ih
      refine ⟨by omega, h2, ?_, by intro hn; have := h4 hn; omega⟩
      intro p hp
      have := h3 p hp
      omega
  | pause h ih =>
      rename_i e t
      obtain ⟨h1, h2, h3, h4⟩ := ih
      cases hpa : e.pausedAt with
      | some p =>
          have hEq : pauseEntry t e = e := by simp [pauseEntry, hpa]
          rw [hEq]
          exact ⟨h1, h2, h3, h4⟩
      | none =>
          have h5 := h4 hpa
          have hEq : pauseEntry t e = { e with pausedAt := some t } := by
            simp [pauseEntry, hpa]
          rw [hEq]
          refine ⟨h1, h2, ?_, by simp⟩
          intro p hp
          simp only [Option.some.injEq] at hp
          simp only at *
          omega
  | resume h ih =>
      rename_i e t
      obtain ⟨h1, h2, h3, h4⟩ := ih
      cases hpa : e.pausedAt with
      | some p =>
          have h5 := h3 p hpa
          have hEq : resumeEntry t e =
              { e with pausedDuration := e.pausedDuration + (t - p),
                       pausedAt := none } := by
            simp [resumeEntry, hpa]
          rw [hEq]
          refine ⟨h1, by simp only; omega, ?_, ?_⟩
          · intro q hq
            simp at hq
          · intro _
            simp only
            omega
      | none =>
          have hEq : resumeEntry t e = e := by simp [resumeEntry, hpa]
          rw [hEq]
          exact ⟨h1, h2, h3, h4⟩

/-- C10: stopping a reachable timer entry at instant `endT` submits a
time-log request whose `start` and `end` are the raw wall-clock instants of
the session while `duration` is the pause-adjusted `getEffectiveElapsed`;
that duration never exceeds `endT - startTime` and is strictly smaller
whenever any paused time was accumulated — the interval endpoints do not
account for pauses, only the duration does. -/
theorem stopTimer_duration_bounded_by_interval
    (s : PopupState) (taskId : String) (e : TimerEntry) (endT : Int)
    (b : Bool) (hreach : ReachableTimer e endT)
    (hlook : lookupTimer s.activeTimers taskId = some e) :
    (stopTimer s taskId endT b).request =
      some ⟨taskId, getEffectiveElapsed e endT, e.startTime, endT⟩ ∧
    getEffectiveElapsed e endT ≤ endT - e.startTime ∧
    (0 < e.pausedDuration →
      getEffectiveElapsed e endT < endT - e.startTime) := by
  obtain ⟨h1, h2, h3, h4⟩ := reachableTimer_invariant hreach
  refine ⟨by simp [stopTimer, hlook], ?_, ?_⟩
  · cases hpa : e.pausedAt with
    | some p =>
        have h5 := h3 p hpa
        simp only [getEffectiveElapsed, hpa]
        omega
    | none =>
        have h5 := h4 hpa
        simp only [getEffectiveElapsed, hpa]
        omega
  · intro hpd
    cases hpa : e.pausedAt with
    | some p =>
        have h5 := h3 p hpa
        simp only [getEffectiveElapsed, hpa]
        omega
    | none =>
        have h5 := h4 hpa
        simp only [getEffectiveElapsed, hpa]
        omega

/-- Witness for C10: a concrete session — started at 0, paused from 3 to 5,
stopped at 10 — yields a reachable entry with 2ms of accumulated pause, and
the submitted request carries duration 8 over the raw interval `[0, 10]`. -/
theorem stopTimer_duration_bounded_witness :
    lookupTimer [("t1", ⟨0, 2, none⟩)] "t1" =
      some (⟨0, 2, none⟩ : TimerEntry) ∧
    ((stopTimer ⟨[("t1", ⟨0, 2, none⟩)], [("t1", ⟨0, 2, none⟩)]⟩
        "t1" 10 true).request =
      some ⟨"t1", getEffectiveElapsed ⟨0, 2, none⟩ 10, 0, 10⟩ ∧
      getEffectiveElapsed ⟨0, 2, none⟩ 10 ≤ 10 - (0 : Int) ∧
      (0 < (2 : Int) →
        getEffectiveElapsed ⟨0, 2, none⟩ 10 < 10 - (0 : Int))) := by
  have hreach : ReachableTimer ⟨0, 2, none⟩ 10 := by
    have h0 : ReachableTimer ⟨0, 0, none⟩ 3 :=
      .tick (.start 0) (by norm_num)
    have h1 : ReachableTimer ⟨0, 0, some 3⟩ 3 := .pause h0
    have h2 : ReachableTimer ⟨0, 0, some 3⟩ 5 := .tick h1 (by norm_num)
    have h3 : ReachableTimer ⟨0, 2, none⟩ 5 := by
      have := ReachableTimer.resume h2
      simpa [resumeEntry] using this
    exact .tick h3 (by norm_num)
  exact ⟨by decide,
    stopTimer_duration_bounded_by_interval
      ⟨[("t1", ⟨0, 2, none⟩)], [("t1", ⟨0, 2, none⟩)]⟩
      "t1" ⟨0, 2, none⟩ 10 true hreach (by decide)⟩

/-! Helper lemmas for the notification tick. -/

/-- The notified set after the notify loop is the emitted ids (in reverse
insertion order) on top of the incoming set. -/
theorem notifyLoop_snd_eq (now nb : Int) (ts : List Task) (s : List String) :
    (notifyLoop now nb ts s).2 = (notifyLoop now nb ts s).1.reverse ++ s := by
  induction ts generalizing s with
  | nil => simp [notifyLoop]
  | cons t ts ih =>
      by_cases h : shouldNotify now nb s t = true
      · simp [notifyLoop, h, ih (t.id :: s)]
      · simp [notifyLoop, h, ih s]

/-- With pairwise-distinct task ids, the ids the loop emits are exactly the
ids of the tasks satisfying `shouldNotify` against any set that agrees with
the running set on the ids of the remaining tasks. -/
theorem notifyLoop_fst_eq (now nb : Int) :
    ∀ (ts : List Task) (s s0 : List String),
      (ts.map Task.id).Nodup →
      (∀ t ∈ ts, t.id ∈ s ↔ t.id ∈ s0) →
      (notifyLoop now nb ts s).1 =
        (ts.filter (shouldNotify now nb s0)).map Task.id := by
  intro ts
  induction ts with
  | nil => intro s s0 _ _; simp [notifyLoop]
  | cons t ts ih =>
      intro s s0 hnd hagree
      rw [List.map_cons, List.nodup_cons] at hnd
      obtain ⟨hnotin, hnd'⟩ := hnd
      have hmem : t.id ∈ s ↔ t.id ∈ s0 := hagree t (by simp)
      have hsn : shouldNotify now nb s t = shouldNotify now nb s0 t := by
        cases hd : t.due_date with
        | none => simp [shouldNotify, hd]
        | some d => simp [shouldNotify, hd, hmem]
      by_cases h : shouldNotify now nb s0 t = true
      · have hagree' : ∀ u ∈ ts, u.id ∈ (t.id :: s) ↔ u.id ∈ s0 := by
          intro u hu
          have hne : u.id ≠ t.id := fun hEq =>
            hnotin (hEq ▸ List.mem_map_of_mem Task.id hu)
          rw [List.mem_cons]
          simp only [hne, false_or]
          exact hagree u (List.mem_cons_of_mem t hu)
        simp [notifyLoop, hsn, h, List.filter_cons,
          ih (t.id :: s) s0 hnd' hagree']
      · simp [notifyLoop, hsn, h, List.filter_cons,
          ih s s0 hnd' (fun u hu => hagree u (List.mem_cons_of_mem t hu))]

/-- Membership in the emitted ids, for a task of the fetched list, is the
`shouldNotify` condition against the incoming set. -/
theorem mem_notifyLoop_fst_iff (now nb : Int) (ts : List Task)
    (s0 : List String) (hnd : (ts.map Task.id).Nodup)
    (t : Task) (ht : t ∈ ts) :
    t.id ∈ (notifyLoop now nb ts s0).1 ↔ shouldNotify now nb s0 t = true := by
  rw [notifyLoop_fst_eq now nb ts s0 s0 hnd (fun _ _ => Iff.rfl)]
  constructor
  · intro h
    rw [List.mem_map] at h
    obtain ⟨u, hu, huid⟩ := h
    rw [List.mem_filter] at hu
    obtain ⟨humem, hup⟩ := hu
    have : u = t := List.inj_on_of_nodup_map hnd humem ht huid
    rwa [this] at hup
  · intro h
    rw [List.mem_map]
    exact ⟨t, List.mem_filter.mpr ⟨ht, h⟩, rfl⟩

/-- `shouldNotify` unfolded into the specification's wording. -/
theorem shouldNotify_eq_true_iff (now nb : Int) (s : List String) (t : Task) :
    shouldNotify now nb s t = true ↔
      ∃ d, t.due_date = some d ∧ 0 < d - now ∧ d - now ≤ nb ∧ t.id ∉ s := by
  cases hd : t.due_date <;> simp [shouldNotify, hd, and_assoc]

/-- The sweep keeps an id iff some fetched task carries that id and does not
have a due date strictly in the past. -/
theorem keepNotified_eq_true_iff (now : Int) (tasks : List Task)
    (hnd : (tasks.map Task.id).Nodup) (taskId : String) :
    keepNotified now tasks taskId = true ↔
      ∃ t ∈ tasks, t.id = taskId ∧
        (t.due_date = none ∨ ∃ d, t.due_date = some d ∧ ¬ d < now) := by
  unfold keepNotified
  cases hf : tasks.find? (fun t => decide (t.id = taskId)) with
  | none =>
      simp only [Bool.false_eq_true, false_iff]
      rintro ⟨t, htmem, hid, _⟩
      have := List.find?_eq_none.mp hf t htmem
      simp [hid] at this
  | some u =>
      have humem := List.mem_of_find?_eq_some hf
      have huid : u.id = taskId := by simpa using List.find?_some hf
      show (match u.due_date with
            | none => true
            | some d => !decide (d < now)) = true ↔ _
      constructor
      · intro h
        refine ⟨u, humem, huid, ?_⟩
        cases hd : u.due_date with
        | none => exact Or.inl rfl
        | some d =>
            rw [hd] at h
            simp only [Bool.not_eq_eq_eq_not, Bool.not_true,
              decide_eq_false_iff_not] at h
            exact Or.inr ⟨d, rfl, h⟩
      · rintro ⟨t, htmem, hid, hcond⟩
        have hut : t = u :=
          List.inj_on_of_nodup_map hnd htmem humem (hid.trans huid.symm)
        subst hut
        rcases hcond with hnone | ⟨d2, hd2, hlt⟩
        · rw [hnone]
        · rw [hd2]
          simpa using hlt

/-- C7: on a notification tick over fetched tasks with distinct ids, a
notification is emitted exactly for the tasks whose time until due lies in
`(0, notifyBeforeMs]` and whose id is not yet in the notified set; every
notified id lands in the post-tick set; the post-tick set keeps exactly the
ids that were present (before or by this tick) and still name a fetched task
whose due time has not passed; and a later tick at which the same task is
still pending emits no duplicate for it. -/
theorem checkDueNotifications_spec (now nb : Int) (tasks : List Task)
    (s0 : List String) (hnd : (tasks.map Task.id).Nodup) :
    (∀ t ∈ tasks,
      (t.id ∈ (checkDueNotifications now nb tasks s0).1 ↔
        ∃ d, t.due_date = some d ∧ 0 < d - now ∧ d - now ≤ nb ∧
          t.id ∉ s0)) ∧
    (∀ t ∈ tasks, t.id ∈ (checkDueNotifications now nb tasks s0).1 →
      t.id ∈ (checkDueNotifications now nb tasks s0).2) ∧
    (∀ taskId, taskId ∈ (checkDueNotifications now nb tasks s0).2 ↔
      (taskId ∈ s0 ∨ taskId ∈ (checkDueNotifications now nb tasks s0).1) ∧
      ∃ t ∈ tasks, t.id = taskId ∧
        (t.due_date = none ∨ ∃ d, t.due_date = some d ∧ ¬ d < now)) ∧
    (∀ t ∈ tasks, ∀ d, t.due_date = some d → 0 < d - now → d - now ≤ nb →
      t.id ∉ s0 → ∀ now2, 0 < d - now2 →
        t.id ∉ (checkDueNotifications now2 nb tasks
          (checkDueNotifications now nb tasks s0).2).1) := by
  have hfst : (checkDueNotifications now nb tasks s0).1 =
      (notifyLoop now nb tasks s0).1 := rfl
  have hsnd : (checkDueNotifications now nb tasks s0).2 =
      sweepNotified now tasks (notifyLoop now nb tasks s0).2 := rfl
  have ha : ∀ t ∈ tasks,
      (t.id ∈ (checkDueNotifications now nb tasks s0).1 ↔
        ∃ d, t.due_date = some d ∧ 0 < d - now ∧ d - now ≤ nb ∧
          t.id ∉ s0) := by
    intro t ht
    rw [hfst, mem_notifyLoop_fst_iff now nb tasks s0 hnd t ht,
      shouldNotify_eq_true_iff]
  have hmemsnd : ∀ taskId,
      taskId ∈ (checkDueNotifications now nb tasks s0).2 ↔
        (taskId ∈ (notifyLoop now nb tasks s0).1 ∨ taskId ∈ s0) ∧
        keepNotified now tasks taskId = true := by
    intro taskId
    rw [hsnd, sweepNotified, List.mem_filter,
      notifyLoop_snd_eq now nb tasks s0, List.mem_append, List.mem_reverse]
  have hb : ∀ t ∈ tasks, t.id ∈ (checkDueNotifications now nb tasks s0).1 →
      t.id ∈ (checkDueNotifications now nb tasks s0).2 := by
    intro t ht hmem
    obtain ⟨d, hd, h1, h2, h3⟩ := (ha t ht).mp hmem
    rw [hmemsnd]
    refine ⟨Or.inl (hfst ▸ hmem), ?_⟩
    rw [keepNotified_eq_true_iff now tasks hnd]
    exact ⟨t, ht, rfl, Or.inr ⟨d, hd, by omega⟩⟩
  refine ⟨ha, hb, ?_, ?_⟩
  · intro taskId
    rw [hmemsnd, keepNotified_eq_true_iff now tasks hnd, hfst, or_comm]
  · intro t ht d hd h1 h2 h3 now2 h4 hmem2
    have htin : t.id ∈ (checkDueNotifications now nb tasks s0).2 :=
      hb t ht ((ha t ht).mpr ⟨d, hd, h1, h2, h3⟩)
    have := (mem_notifyLoop_fst_iff now2 nb tasks
      (checkDueNotifications now nb tasks s0).2 hnd t ht).mp hmem2
    rw [shouldNotify_eq_true_iff] at this
    obtain ⟨d2, hd2, _, _, hnot⟩ := this
    exact hnot htin

/-- Witness for C7: one task due in 10 minutes, `notifyBeforeMs` = 15
minutes, empty notified set: the first tick at `now = 0` notifies it, and a
second tick one minute later does not. -/
theorem checkDueNotifications_spec_witness :
    (([⟨"a", some 600000⟩] : List Task).map Task.id).Nodup ∧
    "a" ∈ (checkDueNotifications 0 900000 [⟨"a", some 600000⟩] []).1 ∧
    "a" ∉ (checkDueNotifications 60000 900000 [⟨"a", some 600000⟩]
        (checkDueNotifications 0 900000 [⟨"a", some 600000⟩] []).2).1 := by
  have h := checkDueNotifications_spec 0 900000 [⟨"a", some 600000⟩] []
    (by decide)
  refine ⟨by decide, ?_, ?_⟩
  · exact (h.1 ⟨"a", some 600000⟩ (by simp)).mpr
      ⟨600000, rfl, by norm_num, by norm_num, by simp⟩
  · exact h.2.2.2 ⟨"a", some 600000⟩ (by simp) 600000 rfl (by norm_num)
      (by norm_num) (by simp) 60000 (by norm_num)

end ClickUpDueToday
